import Mathlib

/-!
Shallow embedding of the taint-tracking core in
`ddtrace/appsec/_iast/_taint_tracking/TaintTracking/TaintRange.cpp`.

The file embeds the data model (TaintRange, TaintedObject with a manual
reference count, the identity-keyed TaintRangeMap) and the operations
`get_ranges`, `set_ranges`, `get_tainted_object`, `set_tainted_object`,
`api_shift_taint_range`, `api_shift_taint_ranges`,
`are_all_text_all_ranges`, and the exported `TaintRange` equality
comparators, and proves the specified properties about them.

The host-value capabilities (`is_text`, `get_unique_id`, the lazily cached
Python string hash), the `Initializer` collaborator (`get_tainting_map`,
`context_id`, the two allocation entry points) and the `TaintedObject`
reference-count container are outside the translated source file; they are
modelled from the specification, as marked on each such definition.
-/

/-- A taint source is modelled by an opaque identity: the operations under
verification never inspect it, they only carry it along. -/
abbrev SourceId := Nat

/-- TaintRange: immutable record of a tainted span, `{start, length, source}`,
as declared in `TaintRange.h` and used throughout `TaintRange.cpp`. -/
structure TaintRange where
  start : Nat
  length : Nat
  source : SourceId
deriving Repr, DecidableEq

/-- Modelled from the spec: `allocate_taint_range(start, length, source)` is the
single allocation entry point of the `Initializer` collaborator; it returns a
`TaintRange` with exactly the given fields (pooling is transparent). -/
def allocate_taint_range (s l : Nat) (src : SourceId) : TaintRange :=
  ⟨s, l, src⟩

/-- `api_shift_taint_range` from TaintRange.cpp lines 47-54: allocates a new
range at `start + offset` with the same length and source. -/
def api_shift_taint_range (r : TaintRange) (offset : Nat) : TaintRange :=
  allocate_taint_range (r.start + offset) r.length r.source

/-- `api_shift_taint_ranges` from TaintRange.cpp lines 56-66: shifts every
range of the sequence in order. -/
def api_shift_taint_ranges (rs : List TaintRange) (offset : Nat) : List TaintRange :=
  rs.map (fun r => api_shift_taint_range r offset)

/-- Modelled from the spec: the host-value capability. A Python value is
abstracted to its identity (`get_unique_id`, a memory address), the raw
`PyASCIIObject.hash` field (`-1` means not yet computed), the hash the host
would produce if `PyObject_Hash` forces the computation, and whether the
value is text-like (`is_text`). -/
structure PyValue where
  uid : Int
  hsh : Int
  forcedHsh : Int
  text : Bool
deriving Repr, DecidableEq

/-- The `is_text` host capability (declared in Utils, outside the source
file): text-likeness of a value. -/
def is_text (v : PyValue) : Bool := v.text

/-- The `get_unique_id` host capability: the value's stable identity. -/
def get_unique_id (v : PyValue) : Int := v.uid

/-- Modelled from the spec: a `TaintedObject` holds the ordered range
sequence of one value plus a manual reference count. -/
structure TaintedObj where
  ranges : List TaintRange
  rc : Nat
deriving Repr, DecidableEq

/-- A map entry: the cached Python hash of the value paired with the index of
the referenced `TaintedObj` in the heap. -/
abbrev MapEntry := Int × Nat

/-- `TaintRangeMapType`: identity -> (cached hash, TaintedObject), modelled as
an association list with unique keys kept by construction (`std::unordered_map`
in the source). -/
abbrev TaintRangeMapType := List (Int × MapEntry)

/-- The mutable state the operations act on: the heap of reference-counted
`TaintedObj` containers (indices stand for pointers) and the taint map. -/
structure TaintState where
  heap : List TaintedObj
  tmap : TaintRangeMapType
deriving Repr, DecidableEq

/-- Modelled from the spec: the ambient `Initializer` context. `mapSupplied`
says whether the caller passed an explicit non-null map pointer;
`ctxMapExists` whether `initializer->get_tainting_map()` returns one;
`ctxId` is `initializer->context_id()` (0 = no active context). All maps
resolve to the single map of the state. -/
structure Env where
  mapSupplied : Bool
  ctxMapExists : Bool
  ctxId : Nat
deriving Repr, DecidableEq

/-- A map is resolvable when either an explicit map was passed or the context
has one. -/
def Env.resolvable (e : Env) : Bool := e.mapSupplied || e.ctxMapExists

/-- `unordered_map::find`: first entry with the given key, if any. -/
def mapFind (m : TaintRangeMapType) (k : Int) : Option MapEntry :=
  match m with
  | [] => none
  | (k1, e) :: rest => if k1 = k then some e else mapFind rest k

/-- In-place overwrite of the entry at a key (`it->second = ...`); leaves the
map unchanged when the key is absent. -/
def mapUpdate (m : TaintRangeMapType) (k : Int) (e : MapEntry) : TaintRangeMapType :=
  match m with
  | [] => []
  | (k1, e1) :: rest => if k1 = k then (k1, e) :: rest else (k1, e1) :: mapUpdate rest k e

/-- `unordered_map::insert`: inserts only when the key is absent. -/
def mapInsert (m : TaintRangeMapType) (k : Int) (e : MapEntry) : TaintRangeMapType :=
  if (mapFind m k).isSome then m else m ++ [(k, e)]

/-- Apply a function to the heap cell at an index, if in range. -/
def modifyObj (heap : List TaintedObj) (i : Nat) (f : TaintedObj → TaintedObj) :
    List TaintedObj :=
  match heap, i with
  | [], _ => []
  | o :: rest, 0 => f o :: rest
  | o :: rest, n + 1 => o :: modifyObj rest n f

/-- Modelled from the spec: `TaintedObject::incref` bumps the manual count. -/
def increfAt (heap : List TaintedObj) (i : Nat) : List TaintedObj :=
  modifyObj heap i (fun o => { o with rc := o.rc + 1 })

/-- Modelled from the spec: `TaintedObject::decref` drops the manual count;
the object is destroyed when the count reaches zero. -/
def decrefAt (heap : List TaintedObj) (i : Nat) : List TaintedObj :=
  modifyObj heap i (fun o => { o with rc := o.rc - 1 })

/-- The heap cell at an index (a dangling index reads as an empty, dead
object). -/
def objAt (heap : List TaintedObj) (i : Nat) : TaintedObj :=
  heap.getD i ⟨[], 0⟩

/-- Reference count of the object at an index. -/
def rcAt (heap : List TaintedObj) (i : Nat) : Nat := (objAt heap i).rc

/-- `TaintedObject::get_ranges` of the object at an index. -/
def rangesAt (heap : List TaintedObj) (i : Nat) : List TaintRange :=
  (objAt heap i).ranges

/-- Modelled from the spec: `initializer->allocate_ranges_into_taint_object`
creates a fresh `TaintedObject` holding exactly the given ranges, with a
manual count of zero (counting starts when a map entry takes a reference).
Returns the new object's index and the grown heap. -/
def allocate_ranges_into_taint_object (st : TaintState) (rs : List TaintRange) :
    Nat × TaintState :=
  (st.heap.length, { st with heap := st.heap ++ [⟨rs, 0⟩] })

/-- `get_ranges` from TaintRange.cpp lines 68-92: non-text values and an
unresolvable or empty map give the empty sequence; an absent identity gives
the empty sequence; a cached-hash mismatch gives the empty sequence; otherwise
the referenced object's ranges. -/
def get_ranges (env : Env) (v : PyValue) (st : TaintState) : List TaintRange :=
  if !(is_text v) then []
  else if !env.resolvable then []
  else if st.tmap.isEmpty then []
  else
    match mapFind st.tmap (get_unique_id v) with
    | none => []
    | some (h, oid) => if v.hsh != h then [] else rangesAt st.heap oid

/-- The error a mutating operation can raise. -/
inductive TaintErr where
  | notInit
deriving Repr, DecidableEq

/-- `set_ranges` from TaintRange.cpp lines 94-125: no-op for non-text values
or an empty range sequence; raises when no map resolves; no-op when the
context id is 0; otherwise allocates a container for the ranges, increfs it,
and either replaces the existing entry (decref-ing the old container) or
inserts a fresh entry. -/
def set_ranges (env : Env) (v : PyValue) (ranges : List TaintRange) (st : TaintState) :
    Except TaintErr TaintState :=
  if !(is_text v) || ranges.isEmpty then .ok st
  else if !env.resolvable then .error .notInit
  else if env.ctxId = 0 then .ok st
  else
    let obj_id := get_unique_id v
    let found := mapFind st.tmap obj_id
    let alloc := allocate_ranges_into_taint_object st ranges
    let newId := alloc.1
    let st1 := alloc.2
    let hash := v.hsh
    let heap1 := increfAt st1.heap newId
    match found with
    | some e =>
        .ok { heap := decrefAt heap1 e.2, tmap := mapUpdate st1.tmap obj_id (hash, newId) }
    | none =>
        .ok { heap := heap1, tmap := mapInsert st1.tmap obj_id (hash, newId) }

/-- The outcome of `get_tainted_object`: a found object index, a returned
null, the initialization error, or the undefined behaviour of dereferencing
the end iterator. -/
inductive GetTaintedResult where
  | null
  | found (oid : Nat)
  | initError
  | ub
deriving Repr, DecidableEq

/-- `get_tainted_object` from TaintRange.cpp lines 172-196, translated
faithfully including its branch order: the hash comparison against
`it->second.first` is performed before the `it == tx_map->end()` check, so an
absent identity in a non-empty map dereferences the end iterator (modelled as
the `ub` outcome), and a cached-hash mismatch decrefs the stored object
before returning null. -/
def get_tainted_object (env : Env) (v : Option PyValue) (st : TaintState) :
    GetTaintedResult × TaintState :=
  match v with
  | none => (.null, st)
  | some v =>
    if !env.resolvable then (.initError, st)
    else if st.tmap.isEmpty then (.null, st)
    else
      match mapFind st.tmap (get_unique_id v) with
      | none => (.ub, st)
      | some (h, oid) =>
          if v.hsh != h then (.null, { st with heap := decrefAt st.heap oid })
          else (.found oid, st)

/-- `set_tainted_object` from TaintRange.cpp lines 198-237, translated
faithfully: null or non-text values are a no-op; an unresolvable map raises;
the value's hash is forced if still `-1`; when an entry exists for the
identity, a different object is swapped in with a decref of the old and an
incref of the new (leaving the cached hash untouched) and the same object is
left alone entirely; when no entry exists, the new entry is inserted under
the key `hash` (as written at line 236 of the source, not under the
identity). -/
def set_tainted_object (env : Env) (v : Option PyValue) (toId : Nat) (st : TaintState) :
    Except TaintErr TaintState :=
  match v with
  | none => .ok st
  | some v =>
    if !(is_text v) then .ok st
    else if !env.resolvable then .error .notInit
    else
      let obj_id := get_unique_id v
      let found := mapFind st.tmap obj_id
      let hash := if v.hsh = -1 then v.forcedHsh else v.hsh
      match found with
      | some e =>
          if e.2 ≠ toId then
            .ok { heap := increfAt (decrefAt st.heap e.2) toId,
                  tmap := mapUpdate st.tmap obj_id (e.1, toId) }
          else .ok st
      | none =>
          .ok { heap := increfAt st.heap toId,
                tmap := mapInsert st.tmap hash (hash, toId) }

/-- `are_all_text_all_ranges` from TaintRange.cpp lines 131-153: a non-text
candidate yields two empty sequences; otherwise the context map is fetched
(the explicit-map argument of the callers is not used here) and the result is
the concatenation of every text operand's ranges in operand order followed by
the candidate's ranges, paired with the candidate's ranges. -/
def are_all_text_all_ranges (env : Env) (cand : PyValue) (params : List PyValue)
    (st : TaintState) : List TaintRange × List TaintRange :=
  if !(is_text cand) then ([], [])
  else
    let envc : Env := ⟨false, env.ctxMapExists, env.ctxId⟩
    let candidate_text_ranges := get_ranges envc cand st
    let all_ranges := params.foldl
      (fun acc p => if is_text p then acc ++ get_ranges envc p st else acc) []
    (all_ranges ++ candidate_text_ranges, candidate_text_ranges)

/-- The exported `__eq__` of `TaintRange_` (TaintRange.cpp lines 295-300):
false against null, otherwise equality of `(start, length)`. -/
def taintRangeEq (self : TaintRange) (other : Option TaintRange) : Bool :=
  match other with
  | none => false
  | some o => self.start == o.start && self.length == o.length

/-- The exported `__ne__` of `TaintRange_` (TaintRange.cpp lines 301-305):
true against null, otherwise disequality of `start` or `length`. -/
def taintRangeNe (self : TaintRange) (other : Option TaintRange) : Bool :=
  match other with
  | none => true
  | some o => self.start != o.start || self.length != o.length

/-! ## Lemmas about the association-list map -/

theorem mapFind_update_self (m : TaintRangeMapType) (k : Int) (e : MapEntry)
    (h : (mapFind m k).isSome) : mapFind (mapUpdate m k e) k = some e := by
  induction m with
  | nil => simp [mapFind] at h
  | cons p rest ih =>
    obtain ⟨k1, e1⟩ := p
    by_cases hk : k1 = k
    · simp [mapFind, mapUpdate, hk]
    · simp only [mapFind, mapUpdate, if_neg hk] at h ⊢
      exact ih h

theorem mapFind_append_self (m : TaintRangeMapType) (k : Int) (e : MapEntry)
    (h : mapFind m k = none) : mapFind (m ++ [(k, e)]) k = some e := by
  induction m with
  | nil => simp [mapFind]
  | cons p rest ih =>
    obtain ⟨k1, e1⟩ := p
    by_cases hk : k1 = k
    · simp [mapFind, hk] at h
    · simp only [mapFind, if_neg hk, List.cons_append] at h ⊢
      exact ih h

theorem mapInsert_find_self (m : TaintRangeMapType) (k : Int) (e : MapEntry)
    (h : mapFind m k = none) : mapFind (mapInsert m k e) k = some e := by
  simp only [mapInsert, h, Option.isSome_none, Bool.false_eq_true, if_false]
  exact mapFind_append_self m k e h

theorem mapUpdate_isEmpty (m : TaintRangeMapType) (k : Int) (e : MapEntry) :
    (mapUpdate m k e).isEmpty = m.isEmpty := by
  cases m with
  | nil => rfl
  | cons p rest =>
    obtain ⟨k1, e1⟩ := p
    by_cases hk : k1 = k <;> simp [mapUpdate, hk]

theorem mapFind_some_not_isEmpty (m : TaintRangeMapType) (k : Int) (e : MapEntry)
    (h : mapFind m k = some e) : m.isEmpty = false := by
  cases m with
  | nil => simp [mapFind] at h
  | cons p rest => rfl

theorem append_singleton_not_isEmpty (m : TaintRangeMapType) (x : Int × MapEntry) :
    (m ++ [x]).isEmpty = false := by
  cases m <;> rfl

/-! ## Lemmas about the reference-counted heap -/

theorem modifyObj_length (heap : List TaintedObj) (i : Nat) (f : TaintedObj → TaintedObj) :
    (modifyObj heap i f).length = heap.length := by
  induction heap generalizing i with
  | nil => rfl
  | cons o rest ih =>
    cases i with
    | zero => rfl
    | succ n => simp [modifyObj, ih]

theorem modifyObj_out_of_range (heap : List TaintedObj) (i : Nat) (f : TaintedObj → TaintedObj)
    (h : heap.length ≤ i) : modifyObj heap i f = heap := by
  induction heap generalizing i with
  | nil => rfl
  | cons o rest ih =>
    cases i with
    | zero => simp at h
    | succ n =>
      simp only [List.length_cons, Nat.succ_le_succ_iff] at h
      simp [modifyObj, ih n h]

theorem objAt_modifyObj_ne (heap : List TaintedObj) (i j : Nat) (f : TaintedObj → TaintedObj)
    (h : j ≠ i) : objAt (modifyObj heap i f) j = objAt heap j := by
  induction heap generalizing i j with
  | nil => rfl
  | cons o rest ih =>
    cases i with
    | zero =>
      cases j with
      | zero => exact absurd rfl h
      | succ m => rfl
    | succ n =>
      cases j with
      | zero => rfl
      | succ m =>
        simp only [modifyObj, objAt, List.getD_cons_succ]
        exact ih n m (fun hc => h (by rw [hc]))

theorem objAt_modifyObj_self (heap : List TaintedObj) (i : Nat) (f : TaintedObj → TaintedObj)
    (h : i < heap.length) : objAt (modifyObj heap i f) i = f (objAt heap i) := by
  induction heap generalizing i with
  | nil => simp at h
  | cons o rest ih =>
    cases i with
    | zero => rfl
    | succ n =>
      simp only [List.length_cons, Nat.succ_lt_succ_iff] at h
      simp only [modifyObj, objAt, List.getD_cons_succ]
      exact ih n h

theorem objAt_append_lt (heap l : List TaintedObj) (i : Nat) (h : i < heap.length) :
    objAt (heap ++ l) i = objAt heap i := by
  induction heap generalizing i with
  | nil => simp at h
  | cons o rest ih =>
    cases i with
    | zero => rfl
    | succ n =>
      simp only [List.length_cons, Nat.succ_lt_succ_iff] at h
      simp only [List.cons_append, objAt, List.getD_cons_succ]
      exact ih n h

theorem objAt_append_length (heap : List TaintedObj) (o : TaintedObj) :
    objAt (heap ++ [o]) heap.length = o := by
  induction heap with
  | nil => rfl
  | cons p rest _ih => simp [objAt]

theorem rangesAt_modifyObj (heap : List TaintedObj) (i j : Nat) (f : TaintedObj → TaintedObj)
    (hf : ∀ o, (f o).ranges = o.ranges) :
    rangesAt (modifyObj heap i f) j = rangesAt heap j := by
  by_cases hij : j = i
  · subst hij
    by_cases hlt : j < heap.length
    · simp [rangesAt, objAt_modifyObj_self heap j f hlt, hf]
    · rw [modifyObj_out_of_range heap j f (Nat.le_of_not_lt hlt)]
  · simp [rangesAt, objAt_modifyObj_ne heap i j f hij]

theorem rangesAt_increfAt (heap : List TaintedObj) (i j : Nat) :
    rangesAt (increfAt heap i) j = rangesAt heap j :=
  rangesAt_modifyObj heap i j _ (fun _ => rfl)

theorem rangesAt_decrefAt (heap : List TaintedObj) (i j : Nat) :
    rangesAt (decrefAt heap i) j = rangesAt heap j :=
  rangesAt_modifyObj heap i j _ (fun _ => rfl)

theorem rcAt_increfAt_self (heap : List TaintedObj) (i : Nat) (h : i < heap.length) :
    rcAt (increfAt heap i) i = rcAt heap i + 1 := by
  simp [rcAt, increfAt, objAt_modifyObj_self heap i _ h]

theorem rcAt_decrefAt_self (heap : List TaintedObj) (i : Nat) (h : i < heap.length) :
    rcAt (decrefAt heap i) i = rcAt heap i - 1 := by
  simp [rcAt, decrefAt, objAt_modifyObj_self heap i _ h]

theorem rcAt_modifyObj_ne (heap : List TaintedObj) (i j : Nat) (f : TaintedObj → TaintedObj)
    (h : j ≠ i) : rcAt (modifyObj heap i f) j = rcAt heap j := by
  simp [rcAt, objAt_modifyObj_ne heap i j f h]

/-! ## Claim theorems -/

/-- C7: shift correctness. For every taint range `r` and offset `o`,
`api_shift_taint_range r o` has start `r.start + o`, the same length, and the
same source (the input is a pure value here, so it is not mutated); and
`api_shift_taint_ranges rs o` has the same size as `rs` and is element-wise
the shift of the corresponding element, preserving order. -/
theorem shift_taint_range_correct (r : TaintRange) (o : Nat) (rs : List TaintRange) :
    (api_shift_taint_range r o).start = r.start + o ∧
    (api_shift_taint_range r o).length = r.length ∧
    (api_shift_taint_range r o).source = r.source ∧
    (api_shift_taint_ranges rs o).length = rs.length ∧
    ∀ i : Nat, (api_shift_taint_ranges rs o)[i]? =
      (rs[i]?).map (fun t => api_shift_taint_range t o) := by
  refine ⟨rfl, rfl, rfl, ?_, ?_⟩
  · simp [api_shift_taint_ranges]
  · intro i
    simp [api_shift_taint_ranges]

/-- C9: the exported `__eq__` of a range against null is false and `__ne__`
against null is true; against a non-null range, `__ne__` is the boolean
negation of `__eq__`; and both comparators depend only on the
`(start, length)` pairs of the two ranges. -/
theorem taintRange_eq_ne_null_total (r r1 s s1 : TaintRange) :
    taintRangeEq r none = false ∧
    taintRangeNe r none = true ∧
    taintRangeNe r (some s) = !(taintRangeEq r (some s)) ∧
    (r.start = r1.start → r.length = r1.length → s.start = s1.start → s.length = s1.length →
      taintRangeEq r (some s) = taintRangeEq r1 (some s1) ∧
      taintRangeNe r (some s) = taintRangeNe r1 (some s1)) := by
  refine ⟨rfl, rfl, ?_, ?_⟩
  · cases h1 : (r.start == s.start) <;> cases h2 : (r.length == s.length) <;>
      simp [taintRangeEq, taintRangeNe, bne, h1, h2]
  · intro h1 h2 h3 h4
    constructor <;> simp [taintRangeEq, taintRangeNe, h1, h2, h3, h4]

/-- Witness for C9 at concrete ranges differing only in source: the exported
comparators agree as the theorem states. -/
theorem taintRange_eq_ne_null_total_witness :
    taintRangeEq ⟨0, 1, 0⟩ (some ⟨0, 1, 1⟩) = taintRangeEq ⟨0, 1, 2⟩ (some ⟨0, 1, 3⟩) ∧
    taintRangeNe ⟨0, 1, 0⟩ (some ⟨0, 1, 1⟩) = taintRangeNe ⟨0, 1, 2⟩ (some ⟨0, 1, 3⟩) :=
  (taintRange_eq_ne_null_total ⟨0, 1, 0⟩ ⟨0, 1, 2⟩ ⟨0, 1, 1⟩ ⟨0, 1, 3⟩).2.2.2
    rfl rfl rfl rfl

/-- C3 counterexample on the code: for the value with identity 1 and current
hash 7, whose map entry caches hash 5 and references object 0 with reference
count 1, `get_ranges` does return the empty sequence, and `get_tainted_object`
does return null without raising, but the stored object's reference count is
NOT left unchanged: the mismatch branch of `get_tainted_object`
(TaintRange.cpp line 192) decrefs it from 1 to 0 while the map entry stays. -/
theorem stale_mismatch_decref_effect :
    get_ranges ⟨true, false, 1⟩ ⟨1, 7, 7, true⟩ ⟨[⟨[⟨0, 3, 0⟩], 1⟩], [(1, (5, 0))]⟩ = [] ∧
    (get_tainted_object ⟨true, false, 1⟩ (some ⟨1, 7, 7, true⟩)
        ⟨[⟨[⟨0, 3, 0⟩], 1⟩], [(1, (5, 0))]⟩).1 = .null ∧
    rcAt ([⟨[⟨0, 3, 0⟩], 1⟩] : List TaintedObj) 0 = 1 ∧
    rcAt (get_tainted_object ⟨true, false, 1⟩ (some ⟨1, 7, 7, true⟩)
        ⟨[⟨[⟨0, 3, 0⟩], 1⟩], [(1, (5, 0))]⟩).2.heap 0 = 0 ∧
    (get_tainted_object ⟨true, false, 1⟩ (some ⟨1, 7, 7, true⟩)
        ⟨[⟨[⟨0, 3, 0⟩], 1⟩], [(1, (5, 0))]⟩).2.tmap = [(1, (5, 0))] :=
  ⟨rfl, rfl, rfl, rfl, rfl⟩

/-- C5 counterexample on the code: for the non-null text value with identity 2,
absent from a non-empty map (which only holds identity 1), `get_tainted_object`
dereferences the end iterator — `it->second.first` is read at TaintRange.cpp
line 191 before the `it == tx_map->end()` check at line 195 — modelled as the
undefined-behaviour outcome instead of a safe null return. -/
theorem absent_identity_deref_effect :
    (get_tainted_object ⟨true, false, 1⟩ (some ⟨2, 5, 5, true⟩)
        ⟨[⟨[], 1⟩], [(1, (5, 0))]⟩).1 = .ub := rfl

/-- C2 counterexample on the code: for the text value with identity 1 and hash
5 and an empty map, `set_tainted_object` inserts the new entry under the key 5
(the hash, as written at TaintRange.cpp line 236) instead of the identity 1,
so the subsequent identity-keyed lookup `mapFind tmap 1` misses it — and
`get_tainted_object` on the same unchanged value then even dereferences the
end iterator of the now non-empty map. -/
theorem set_tainted_object_key_effect :
    set_tainted_object ⟨true, false, 1⟩ (some ⟨1, 5, 5, true⟩) 0 ⟨[⟨[], 0⟩], []⟩
      = .ok ⟨[⟨[], 1⟩], [(5, (5, 0))]⟩ ∧
    mapFind [(5, (5, 0))] 1 = none ∧
    (get_tainted_object ⟨true, false, 1⟩ (some ⟨1, 5, 5, true⟩)
        ⟨[⟨[], 1⟩], [(5, (5, 0))]⟩).1 = .ub :=
  ⟨rfl, rfl, rfl⟩

/-- C10: re-setting the same `TaintedObject` is reference-count neutral. When
the map already holds an entry for the value's identity whose object is
exactly the one being set, `set_tainted_object` performs no incref, no decref
and leaves the whole state (map entry included) unchanged. -/
theorem set_same_tainted_object_noop (env : Env) (v : PyValue) (toId : Nat)
    (st : TaintState) (h0 : Int) (htext : is_text v = true)
    (hres : env.resolvable = true)
    (hfind : mapFind st.tmap (get_unique_id v) = some (h0, toId)) :
    set_tainted_object env (some v) toId st = .ok st := by
  simp [set_tainted_object, htext, hres, hfind]

/-- Witness for C10: with an entry for identity 1 already referencing object
0, re-setting object 0 returns the state untouched. -/
theorem set_same_tainted_object_noop_witness :
    set_tainted_object ⟨true, false, 1⟩ (some ⟨1, 5, 5, true⟩) 0
      ⟨[⟨[], 1⟩], [(1, (5, 0))]⟩ = .ok ⟨[⟨[], 1⟩], [(1, (5, 0))]⟩ :=
  set_same_tainted_object_noop ⟨true, false, 1⟩ ⟨1, 5, 5, true⟩ 0
    ⟨[⟨[], 1⟩], [(1, (5, 0))]⟩ 5 rfl rfl rfl

/-! ## Characterization of a successful set_ranges -/

/-- A successful `set_ranges` on a fresh identity appends the new container,
increfs it, and appends the map entry keyed by the identity. -/
theorem set_ranges_ok_of_absent (env : Env) (v : PyValue) (rs : List TaintRange)
    (st : TaintState) (htext : is_text v = true) (hemp : rs.isEmpty = false)
    (hres : env.resolvable = true) (hctx : env.ctxId ≠ 0)
    (hfind : mapFind st.tmap (get_unique_id v) = none) :
    set_ranges env v rs st =
      .ok ⟨increfAt (st.heap ++ [⟨rs, 0⟩]) st.heap.length,
           st.tmap ++ [(get_unique_id v, (v.hsh, st.heap.length))]⟩ := by
  simp [set_ranges, htext, hemp, hres, hctx, hfind, allocate_ranges_into_taint_object,
    mapInsert]

/-- A successful `set_ranges` on an already-present identity appends and
increfs the new container, decrefs the previously referenced one, and
overwrites the map entry in place. -/
theorem set_ranges_ok_of_found (env : Env) (v : PyValue) (rs : List TaintRange)
    (st : TaintState) (h0 : Int) (oid : Nat) (htext : is_text v = true)
    (hemp : rs.isEmpty = false) (hres : env.resolvable = true) (hctx : env.ctxId ≠ 0)
    (hfind : mapFind st.tmap (get_unique_id v) = some (h0, oid)) :
    set_ranges env v rs st =
      .ok ⟨decrefAt (increfAt (st.heap ++ [⟨rs, 0⟩]) st.heap.length) oid,
           mapUpdate st.tmap (get_unique_id v) (v.hsh, st.heap.length)⟩ := by
  simp [set_ranges, htext, hemp, hres, hctx, hfind, allocate_ranges_into_taint_object]

/-! ## Further heap access lemmas -/

theorem rcAt_increfAt_ne (heap : List TaintedObj) (i j : Nat) (h : j ≠ i) :
    rcAt (increfAt heap i) j = rcAt heap j :=
  rcAt_modifyObj_ne heap i j _ h

theorem rcAt_decrefAt_ne (heap : List TaintedObj) (i j : Nat) (h : j ≠ i) :
    rcAt (decrefAt heap i) j = rcAt heap j :=
  rcAt_modifyObj_ne heap i j _ h

theorem rcAt_append_lt (heap l : List TaintedObj) (i : Nat) (h : i < heap.length) :
    rcAt (heap ++ l) i = rcAt heap i := by
  simp [rcAt, objAt_append_lt heap l i h]

theorem rcAt_append_length (heap : List TaintedObj) (o : TaintedObj) :
    rcAt (heap ++ [o]) heap.length = o.rc := by
  simp [rcAt, objAt_append_length]

theorem rangesAt_append_length (heap : List TaintedObj) (o : TaintedObj) :
    rangesAt (heap ++ [o]) heap.length = o.ranges := by
  simp [rangesAt, objAt_append_length]

theorem increfAt_length (heap : List TaintedObj) (i : Nat) :
    (increfAt heap i).length = heap.length :=
  modifyObj_length heap i _

theorem decrefAt_length (heap : List TaintedObj) (i : Nat) :
    (decrefAt heap i).length = heap.length :=
  modifyObj_length heap i _

/-- C1: round-trip through the map. For a text-like value, a non-empty range
sequence, a resolvable map and an active context (id not 0), a successful
`set_ranges` followed by `get_ranges` on the same unchanged value (same
identity, same hash: no identity reuse) returns exactly the stored range
sequence, same values and same order. -/
theorem set_get_roundtrip (env : Env) (v : PyValue) (rs : List TaintRange)
    (st st2 : TaintState) (htext : is_text v = true) (hne : rs ≠ [])
    (hres : env.resolvable = true) (hctx : env.ctxId ≠ 0)
    (hset : set_ranges env v rs st = .ok st2) :
    get_ranges env v st2 = rs := by
  have hemp : rs.isEmpty = false := by
    cases rs with
    | nil => exact absurd rfl hne
    | cons a l => rfl
  cases hfind : mapFind st.tmap (get_unique_id v) with
  | none =>
    rw [set_ranges_ok_of_absent env v rs st htext hemp hres hctx hfind] at hset
    injection hset with hset
    subst hset
    simp [get_ranges, htext, hres, append_singleton_not_isEmpty,
      mapFind_append_self st.tmap (get_unique_id v) _ hfind,
      rangesAt_increfAt, rangesAt_append_length]
  | some e =>
    obtain ⟨h0, oid⟩ := e
    rw [set_ranges_ok_of_found env v rs st h0 oid htext hemp hres hctx hfind] at hset
    injection hset with hset
    subst hset
    have hstemp : st.tmap.isEmpty = false := mapFind_some_not_isEmpty st.tmap _ _ hfind
    have hsome : (mapFind st.tmap (get_unique_id v)).isSome := by rw [hfind]; rfl
    simp [get_ranges, htext, hres, mapUpdate_isEmpty, hstemp,
      mapFind_update_self st.tmap (get_unique_id v) _ hsome,
      rangesAt_decrefAt, rangesAt_increfAt, rangesAt_append_length]

/-- Witness for C1: storing one range on a fresh value in an active context
and reading it back returns exactly that range. -/
theorem set_get_roundtrip_witness :
    get_ranges ⟨true, false, 1⟩ ⟨1, 5, 5, true⟩ ⟨[⟨[⟨0, 3, 0⟩], 1⟩], [(1, (5, 0))]⟩
      = [⟨0, 3, 0⟩] :=
  set_get_roundtrip ⟨true, false, 1⟩ ⟨1, 5, 5, true⟩ [⟨0, 3, 0⟩] ⟨[], []⟩
    ⟨[⟨[⟨0, 3, 0⟩], 1⟩], [(1, (5, 0))]⟩ rfl (by decide) rfl (by decide) rfl

/-- C6: error taxonomy of `set_ranges`. It returns the initialization error
exactly when the value is text-like, the range sequence is non-empty, no
explicit map is supplied and no context-default map exists; a non-text value
or an empty sequence is a silent no-op leaving the state unchanged; and with
a resolvable map but context id 0 it is likewise a silent no-op leaving the
state unchanged. -/
theorem set_ranges_error_taxonomy (env : Env) (v : PyValue) (rs : List TaintRange)
    (st : TaintState) :
    ((set_ranges env v rs st = .error .notInit) ↔
      (is_text v = true ∧ rs ≠ [] ∧ env.mapSupplied = false ∧ env.ctxMapExists = false)) ∧
    ((is_text v = false ∨ rs = []) → set_ranges env v rs st = .ok st) ∧
    ((env.resolvable = true ∧ env.ctxId = 0) → set_ranges env v rs st = .ok st) := by
  obtain ⟨ms, cm, cid⟩ := env
  cases htext : is_text v with
  | false => simp [set_ranges, htext]
  | true =>
    cases rs with
    | nil => simp [set_ranges, htext]
    | cons r rest =>
      cases ms <;> cases cm <;>
        by_cases hcid : cid = 0 <;>
        cases hfind : mapFind st.tmap (get_unique_id v) <;>
        simp [set_ranges, htext, Env.resolvable, hcid, hfind,
          allocate_ranges_into_taint_object, mapInsert]

/-- Witness for C6: with a text value, a non-empty sequence and no resolvable
map, `set_ranges` raises the initialization error. -/
theorem set_ranges_error_taxonomy_witness :
    set_ranges ⟨false, false, 1⟩ ⟨1, 5, 5, true⟩ [⟨0, 3, 0⟩] ⟨[], []⟩ = .error .notInit :=
  (set_ranges_error_taxonomy ⟨false, false, 1⟩ ⟨1, 5, 5, true⟩ [⟨0, 3, 0⟩] ⟨[], []⟩).1.mpr
    ⟨rfl, by decide, rfl, rfl⟩

/-- Folding the text-filtered range concatenation equals joining the mapped
per-operand contributions. -/
theorem foldl_text_append (params : List PyValue) (g : PyValue → List TaintRange)
    (acc : List TaintRange) :
    params.foldl (fun a p => if is_text p then a ++ g p else a) acc
      = acc ++ (params.map (fun p => if is_text p then g p else [])).flatten := by
  induction params generalizing acc with
  | nil => simp
  | cons p rest ih =>
    cases hp : is_text p <;> simp [hp, ih, List.append_assoc]

/-- C8: result shape of `are_all_text_all_ranges`. For a non-text candidate
the call returns two empty sequences; for a text candidate it returns the
concatenation of each text operand's ranges in operand order followed by the
candidate's own ranges, paired with exactly the candidate's ranges, non-text
operands contributing nothing. -/
theorem are_all_text_all_ranges_shape (env : Env) (cand : PyValue)
    (params : List PyValue) (st : TaintState) :
    (is_text cand = false → are_all_text_all_ranges env cand params st = ([], [])) ∧
    (is_text cand = true →
      are_all_text_all_ranges env cand params st =
        ((params.map (fun p => if is_text p then
            get_ranges ⟨false, env.ctxMapExists, env.ctxId⟩ p st else [])).flatten ++
          get_ranges ⟨false, env.ctxMapExists, env.ctxId⟩ cand st,
         get_ranges ⟨false, env.ctxMapExists, env.ctxId⟩ cand st)) := by
  constructor
  · intro h
    simp [are_all_text_all_ranges, h]
  · intro h
    simp only [are_all_text_all_ranges, h, Bool.not_true, Bool.false_eq_true, if_false]
    rw [foldl_text_append params
      (fun p => get_ranges ⟨false, env.ctxMapExists, env.ctxId⟩ p st) []]
    simp

/-- Witness for C8, the ordering example of the spec: candidate with ranges
`[rc]` and operands `[o1 (ranges [r1]), o2 (non-text), o3 (ranges [r3])]`
give `all_ranges = [r1, r3, rc]` and `candidate_ranges = [rc]`. -/
theorem are_all_text_all_ranges_shape_witness :
    are_all_text_all_ranges ⟨false, true, 1⟩ ⟨10, 5, 5, true⟩
      [⟨11, 6, 6, true⟩, ⟨12, 9, 9, false⟩, ⟨13, 7, 7, true⟩]
      ⟨[⟨[⟨0, 2, 0⟩], 1⟩, ⟨[⟨1, 2, 1⟩], 1⟩, ⟨[⟨3, 1, 2⟩], 1⟩],
       [(10, (5, 0)), (11, (6, 1)), (13, (7, 2))]⟩
      = ([⟨1, 2, 1⟩, ⟨3, 1, 2⟩, ⟨0, 2, 0⟩], [⟨0, 2, 0⟩]) := by
  rw [(are_all_text_all_ranges_shape ⟨false, true, 1⟩ ⟨10, 5, 5, true⟩
    [⟨11, 6, 6, true⟩, ⟨12, 9, 9, false⟩, ⟨13, 7, 7, true⟩]
    ⟨[⟨[⟨0, 2, 0⟩], 1⟩, ⟨[⟨1, 2, 1⟩], 1⟩, ⟨[⟨3, 1, 2⟩], 1⟩],
     [(10, (5, 0)), (11, (6, 1)), (13, (7, 2))]⟩).2 rfl]
  decide

/-- C4: re-tainting releases the previous container. After `set_ranges(v, A)`
then `set_ranges(v, B)` on the same value in an active context without
identity reuse, the container allocated for `A` (heap index equal to the
initial heap size) has reference count zero (it is destroyed), the map entry
for the value's identity references the container for `B` (the next heap
index), that container's count is exactly one (the single live map
reference), and `get_ranges` returns `B`. -/
theorem retaint_releases_previous (env : Env) (v : PyValue) (A B : List TaintRange)
    (st st1 st2 : TaintState) (htext : is_text v = true) (hA : A ≠ []) (hB : B ≠ [])
    (hres : env.resolvable = true) (hctx : env.ctxId ≠ 0)
    (h1 : set_ranges env v A st = .ok st1) (h2 : set_ranges env v B st1 = .ok st2) :
    rcAt st2.heap st.heap.length = 0 ∧
    mapFind st2.tmap (get_unique_id v) = some (v.hsh, st1.heap.length) ∧
    rcAt st2.heap st1.heap.length = 1 ∧
    get_ranges env v st2 = B := by
  have hAe : A.isEmpty = false := by
    cases A with
    | nil => exact absurd rfl hA
    | cons a l => rfl
  have hBe : B.isEmpty = false := by
    cases B with
    | nil => exact absurd rfl hB
    | cons a l => rfl
  obtain ⟨f1, f2, f3⟩ :
      mapFind st1.tmap (get_unique_id v) = some (v.hsh, st.heap.length) ∧
      st1.heap.length = st.heap.length + 1 ∧
      rcAt st1.heap st.heap.length ≤ 1 := by
    cases hfind : mapFind st.tmap (get_unique_id v) with
    | none =>
      rw [set_ranges_ok_of_absent env v A st htext hAe hres hctx hfind] at h1
      injection h1 with h1
      subst h1
      refine ⟨mapFind_append_self st.tmap _ _ hfind, ?_, ?_⟩
      · simp [increfAt_length]
      · have hlen : st.heap.length < (st.heap ++ [(⟨A, 0⟩ : TaintedObj)]).length := by
          simp
        rw [rcAt_increfAt_self _ _ hlen, rcAt_append_length]
    | some e =>
      obtain ⟨eh, eo⟩ := e
      rw [set_ranges_ok_of_found env v A st eh eo htext hAe hres hctx hfind] at h1
      injection h1 with h1
      subst h1
      have hsome : (mapFind st.tmap (get_unique_id v)).isSome := by rw [hfind]; rfl
      refine ⟨mapFind_update_self st.tmap _ _ hsome, ?_, ?_⟩
      · simp [decrefAt_length, increfAt_length]
      · have hlen : st.heap.length < (st.heap ++ [(⟨A, 0⟩ : TaintedObj)]).length := by
          simp
        by_cases he : eo = st.heap.length
        · rw [he]
          have hlen2 : st.heap.length <
              (increfAt (st.heap ++ [(⟨A, 0⟩ : TaintedObj)]) st.heap.length).length := by
            rw [increfAt_length]
            exact hlen
          rw [rcAt_decrefAt_self _ _ hlen2, rcAt_increfAt_self _ _ hlen,
            rcAt_append_length]
          simp
        · rw [rcAt_decrefAt_ne _ _ _ (fun hc => he hc.symm),
            rcAt_increfAt_self _ _ hlen, rcAt_append_length]
  have hf1some : (mapFind st1.tmap (get_unique_id v)).isSome := by rw [f1]; rfl
  rw [set_ranges_ok_of_found env v B st1 v.hsh st.heap.length htext hBe hres hctx f1] at h2
  injection h2 with h2
  subst h2
  have hneq : st.heap.length ≠ st1.heap.length := by omega
  have hlenB : st1.heap.length < (st1.heap ++ [(⟨B, 0⟩ : TaintedObj)]).length := by
    simp
  have hlenA : st.heap.length <
      (increfAt (st1.heap ++ [(⟨B, 0⟩ : TaintedObj)]) st1.heap.length).length := by
    simp [increfAt_length]
    omega
  refine ⟨?_, ?_, ?_, ?_⟩
  · rw [rcAt_decrefAt_self _ _ hlenA, rcAt_increfAt_ne _ _ _ hneq,
      rcAt_append_lt _ _ _ (by omega)]
    omega
  · exact mapFind_update_self st1.tmap _ _ hf1some
  · rw [rcAt_decrefAt_ne _ _ _ (fun hc => hneq hc.symm),
      rcAt_increfAt_self _ _ hlenB, rcAt_append_length]
  · have hempty : (mapUpdate st1.tmap (get_unique_id v) (v.hsh, st1.heap.length)).isEmpty
        = false := by
      rw [mapUpdate_isEmpty]
      exact mapFind_some_not_isEmpty st1.tmap _ _ f1
    simp [get_ranges, htext, hres, hempty,
      mapFind_update_self st1.tmap (get_unique_id v) _ hf1some,
      rangesAt_decrefAt, rangesAt_increfAt, rangesAt_append_length]

/-- Witness for C4: on a fresh value, storing `[A]` then `[B]` leaves the
first container at count zero, the entry referencing the second container at
count one, and `get_ranges` returning `[B]`. -/
theorem retaint_releases_previous_witness :
    rcAt ([⟨[⟨0, 1, 0⟩], 0⟩, ⟨[⟨2, 3, 1⟩], 1⟩] : List TaintedObj) 0 = 0 ∧
    mapFind [(1, (5, 1))] 1 = some (5, 1) ∧
    rcAt ([⟨[⟨0, 1, 0⟩], 0⟩, ⟨[⟨2, 3, 1⟩], 1⟩] : List TaintedObj) 1 = 1 ∧
    get_ranges ⟨true, false, 1⟩ ⟨1, 5, 5, true⟩
      ⟨[⟨[⟨0, 1, 0⟩], 0⟩, ⟨[⟨2, 3, 1⟩], 1⟩], [(1, (5, 1))]⟩ = [⟨2, 3, 1⟩] :=
  retaint_releases_previous ⟨true, false, 1⟩ ⟨1, 5, 5, true⟩ [⟨0, 1, 0⟩] [⟨2, 3, 1⟩]
    ⟨[], []⟩ ⟨[⟨[⟨0, 1, 0⟩], 1⟩], [(1, (5, 0))]⟩
    ⟨[⟨[⟨0, 1, 0⟩], 0⟩, ⟨[⟨2, 3, 1⟩], 1⟩], [(1, (5, 1))]⟩
    rfl (by decide) (by decide) rfl (by decide) rfl rfl
